import Mathlib

/-!
Verification of the StrGraphCPP Python frontend.

The development shallowly embeds the Python facade of StrGraphCPP
(`strgraph/graph.py`, `strgraph/ops.py`, `strgraph/custom_ops.py`,
`strgraph/hybrid_ops.py`).  Python methods that mutate `self` become
functions `State -> args -> State x result`; a raised exception becomes an
`Except.error` carrying the state at the raise point.  The C++ execution
backend (`strgraph_cpp`) is not part of the Python sources; its observable
behaviour is modelled from the specification (marked `Modelled from the
spec:` below).
-/

namespace StrGraph

/-- Errors: Python-level exceptions (`ValueError`, `TypeError`,
`RuntimeError`) raised by the facade, and the spec's backend error kinds
(section 7 of the specification) for the modelled C++ engine. -/
inductive Err
  | valueError (msg : String)
  | typeError (msg : String)
  | runtimeError (msg : String)
  | schemaError (msg : String)
  | duplicateNode (msg : String)
  | unknownNode (msg : String)
  | unknownOperation (msg : String)
  | badPort (msg : String)
  | cycleDetected (msg : String)
  | missingFeed (msg : String)
  | invalidArgument (msg : String)
  | operationFailure (msg : String)
  | duplicateOperation (msg : String)
deriving DecidableEq, Repr

deriving instance DecidableEq for Except

/-- A feed: the mapping from placeholder ids to runtime string values. -/
abbrev Feed := List (String × String)

/-- First value bound to a key in an association list (Python dict lookup). -/
def lookupKey {α : Type} : List (String × α) → String → Option α
  | [], _ => none
  | (k, v) :: rest, key => if k = key then some v else lookupKey rest key

/-- Python `key in dict`. -/
def hasKeyA {α : Type} (l : List (String × α)) (k : String) : Bool :=
  (lookupKey l k).isSome

/-- Python `dict[key] = value`: replaces in place when the key exists,
appends otherwise (insertion order is preserved). -/
def dictInsert {α : Type} : List (String × α) → String → α → List (String × α)
  | [], k, v => [(k, v)]
  | (k', v') :: rest, k, v =>
    if k' = k then (k, v) :: rest else (k', v') :: dictInsert rest k v

/-- Membership test on a plain key list (Python `key in dict` when only the
keys matter). -/
def hasKey : List String → String → Bool
  | [], _ => false
  | x :: xs, k => if x = k then true else hasKey xs k

/-- Key-set effect of `dict[key] = value`: a fresh key is appended, an
existing key keeps its position. -/
def dictInsertKey (keys : List String) (k : String) : List String :=
  if hasKey keys k then keys else keys ++ [k]

/-- A node definition: the `node_dict` JSON object built by the `Graph`
builder methods in `graph.py`.  Absent JSON fields are `none`. -/
structure NodeDef where
  id : String
  type : Option String
  value : Option String
  op : Option String
  inputs : Option (List String)
  constants : Option (List String)
deriving DecidableEq, Repr

/-- The `node_dict` of `Graph.constant`. -/
def constDict (nid value : String) : NodeDef :=
  ⟨nid, some "constant", some value, none, none, none⟩

/-- The `node_dict` of `Graph.variable`. -/
def varDict (nid value : String) : NodeDef :=
  ⟨nid, some "variable", some value, none, none, none⟩

/-- The `node_dict` of `Graph.placeholder`. -/
def placeholderDict (nid : String) : NodeDef :=
  ⟨nid, some "placeholder", none, none, none, none⟩

/-- The `node_dict` of `Graph._add_operation_node`: the `constants` key is
present only when the constants list is non-empty (`if constants:`). -/
def opDict (nid opName : String) (inputs : List String) (constants : List String) : NodeDef :=
  ⟨nid, none, none, some opName, some inputs,
    if constants.isEmpty then none else some constants⟩

/-- Decimal digit value of a character (ASCII code minus 48). -/
def digitVal (c : Char) : Option Nat :=
  if c.isDigit then some (c.toNat - 48) else none

/-- Parse a non-empty all-digit character list as a natural number. -/
def parseNatChars (cs : List Char) : Option Nat :=
  match cs with
  | [] => none
  | _ =>
    cs.foldl (fun acc c =>
      match acc, digitVal c with
      | some a, some d => some (a * 10 + d)
      | _, _ => none) (some 0)

/-- Parse a decimal integer with an optional leading minus sign (the form
produced by Python `str(int)`). -/
def parseIntChars (cs : List Char) : Option Int :=
  match cs with
  | '-' :: rest => (parseNatChars rest).map (fun n => -(n : Int))
  | _ => (parseNatChars cs).map (fun n => (n : Int))

/-- Modelled from the spec: ASCII whitespace recognised by `trim` and the
whitespace-separated runs of `title`. -/
def isSpaceChar (c : Char) : Bool :=
  c = ' ' || c = '\t' || c = '\n' || c = '\r' || c = '\x0b' || c = '\x0c'

/-- True when `p` is an initial segment of `xs`. -/
def leadSeg : List Char → List Char → Bool
  | [], _ => true
  | _ :: _, [] => false
  | p :: ps, x :: xs => p = x && leadSeg ps xs

/-- Modelled from the spec: left-to-right split of `xs` by the non-empty
delimiter `delim`; `acc` holds the current segment reversed, `fuel` bounds
the recursion by the length of the remaining input. -/
def splitChars (delim : List Char) : Nat → List Char → List Char → List (List Char)
  | 0, xs, acc => [acc.reverse ++ xs]
  | fuel + 1, xs, acc =>
    match xs with
    | [] => [acc.reverse]
    | c :: rest =>
      if leadSeg delim xs then
        acc.reverse :: splitChars delim fuel (xs.drop delim.length) []
      else
        splitChars delim fuel rest (c :: acc)

/-- Modelled from the spec: replace every non-overlapping occurrence of the
non-empty pattern `old` by `new`, scanning left to right. -/
def replaceChars (old new : List Char) : Nat → List Char → List Char
  | 0, xs => xs
  | fuel + 1, xs =>
    match xs with
    | [] => []
    | c :: rest =>
      if leadSeg old xs then
        new ++ replaceChars old new fuel (xs.drop old.length)
      else
        c :: replaceChars old new fuel rest

/-- Modelled from the spec: `split` semantics — empty input yields a single
empty output, an empty delimiter yields one output per character. -/
def splitStr (x d : String) : List String :=
  if x.data.isEmpty then [""]
  else if d.data.isEmpty then x.data.map (fun c => String.mk [c])
  else (splitChars d.data (x.data.length + 1) x.data []).map String.mk

/-- Modelled from the spec: `trim` strips leading and trailing ASCII
whitespace. -/
def trimStr (x : String) : String :=
  String.mk (((x.data.dropWhile isSpaceChar).reverse.dropWhile isSpaceChar).reverse)

/-- Modelled from the spec: `replace`; an empty `old` returns the input
unchanged. -/
def replaceStr (x old new : String) : String :=
  if old.data.isEmpty then x
  else String.mk (replaceChars old.data new.data (x.data.length + 1) x.data)

/-- Modelled from the spec: `substring` with `start` clamped to `[0, len]`,
`length = -1` meaning "to the end", other lengths clamped to
`[0, len - start]`. -/
def substringStr (x : String) (start len : Int) : String :=
  let n : Int := x.data.length
  let st : Nat := (max 0 (min start n)).toNat
  let rest := x.data.drop st
  if len = -1 then String.mk rest
  else String.mk (rest.take (max 0 (min len (n - st))).toNat)

/-- Modelled from the spec: `capitalize` — first character upper-cased, the
remainder lower-cased (ASCII). -/
def capitalizeStr (x : String) : String :=
  match x.data with
  | [] => x
  | c :: cs => String.mk (c.toUpper :: cs.map Char.toLower)

/-- Modelled from the spec: `title` — upper-case the first character of each
whitespace-separated run, lower-case the rest. -/
def titleChars : Bool → List Char → List Char
  | _, [] => []
  | atStart, c :: cs =>
    if isSpaceChar c then c :: titleChars true cs
    else (if atStart then c.toUpper else c.toLower) :: titleChars false cs

/-- Modelled from the spec: the registry's declared output arity for each
built-in operation — `some (some k)` for fixed arity `k`, `some none` for
the dynamic `split`, `none` for an unknown operation name. -/
def registryArity (name : String) : Option (Option Nat) :=
  match name with
  | "split" => some none
  | "identity" => some (some 1)
  | "reverse" => some (some 1)
  | "to_upper" => some (some 1)
  | "to_lower" => some (some 1)
  | "concat" => some (some 1)
  | "trim" => some (some 1)
  | "replace" => some (some 1)
  | "substring" => some (some 1)
  | "repeat" => some (some 1)
  | "pad_left" => some (some 1)
  | "pad_right" => some (some 1)
  | "capitalize" => some (some 1)
  | "title" => some (some 1)
  | _ => none

/-- Modelled from the spec: the built-in operation table of section 4.1 —
each executor maps `(inputs, constants)` to an output vector or an error. -/
def applyOp (name : String) (inputs : List String) (consts : List String) :
    Except Err (List String) :=
  match name, inputs, consts with
  | "identity", [x], [] => .ok [x]
  | "reverse", [x], [] => .ok [String.mk x.data.reverse]
  | "to_upper", [x], [] => .ok [String.mk (x.data.map Char.toUpper)]
  | "to_lower", [x], [] => .ok [String.mk (x.data.map Char.toLower)]
  | "concat", xs, [] =>
    if xs.isEmpty then .error (.badPort "concat requires at least one input")
    else .ok [String.join xs]
  | "split", [x], [d] => .ok (splitStr x d)
  | "trim", [x], [] => .ok [trimStr x]
  | "replace", [x], [old, new] => .ok [replaceStr x old new]
  | "substring", [x], [s, l] =>
    match parseIntChars s.data, parseIntChars l.data with
    | some si, some li => .ok [substringStr x si li]
    | _, _ => .error (.invalidArgument "substring: non-numeric constant")
  | "repeat", [x], [c] =>
    match parseIntChars c.data with
    | some ci =>
      if ci < 0 then .error (.invalidArgument "repeat: count must be non-negative")
      else .ok [String.mk ((List.replicate ci.toNat x.data).flatten)]
    | none => .error (.invalidArgument "repeat: non-numeric constant")
  | "pad_left", [x], [w, f] =>
    match parseIntChars w.data, f.data with
    | some wi, [fc] =>
      if wi ≤ (x.data.length : Int) then .ok [x]
      else .ok [String.mk (List.replicate (wi.toNat - x.data.length) fc ++ x.data)]
    | _, _ => .error (.invalidArgument "pad_left: malformed constants")
  | "pad_right", [x], [w, f] =>
    match parseIntChars w.data, f.data with
    | some wi, [fc] =>
      if wi ≤ (x.data.length : Int) then .ok [x]
      else .ok [String.mk (x.data ++ List.replicate (wi.toNat - x.data.length) fc)]
    | _, _ => .error (.invalidArgument "pad_right: malformed constants")
  | "capitalize", [x], [] => .ok [capitalizeStr x]
  | "title", [x], [] => .ok [String.mk (titleChars true x.data)]
  | _, _, _ =>
    match registryArity name with
    | none => .error (.unknownOperation name)
    | some _ => .error (.badPort ("input arity mismatch for " ++ name))

/-- Modelled from the spec: parse a textual `PortRef` — `"id"` selects
output 0, `"id:k"` selects output `k`. -/
def parsePort (s : String) : Except Err (String × Nat) :=
  match s.data.splitOn ':' with
  | [i] => .ok (String.mk i, 0)
  | [i, ks] =>
    match parseNatChars ks with
    | some k => .ok (String.mk i, k)
    | none => .error (.badPort s)
  | _ => .error (.badPort s)

/-- Index of the node with the given id (the compiler's id-to-index map). -/
def nodeIndex (nodes : List NodeDef) (nid : String) : Option Nat :=
  nodes.findIdx? (fun nd => nd.id = nid)

/-- True when the list of ids has no duplicates. -/
def dupFree : List String → Bool
  | [] => true
  | x :: xs => !(hasKey xs x) && dupFree xs

/-- Output arity declared by the producing node: operation nodes report
their registry arity, all other node kinds produce one output. -/
def producerArity (nd : NodeDef) : Option (Option Nat) :=
  match nd.op with
  | some o => registryArity o
  | none => some (some 1)

/-- Modelled from the spec: compile-time validation of one operation node —
every input `PortRef` parses, resolves to an existing node, and respects
the producer's declared arity bound (section 4.3, steps 2-4). -/
def checkInputs (nodes : List NodeDef) : List String → Except Err Unit
  | [] => .ok ()
  | p :: ps =>
    match parsePort p with
    | .error e => .error e
    | .ok (tid, k) =>
      match nodeIndex nodes tid with
      | none => .error (.unknownNode ("Unknown node: " ++ tid))
      | some j =>
        match nodes.get? j with
        | none => .error (.unknownNode ("Unknown node: " ++ tid))
        | some producer =>
          match producerArity producer with
          | none => checkInputs nodes ps
          | some none => checkInputs nodes ps
          | some (some a) =>
            if k < a then checkInputs nodes ps
            else .error (.badPort ("output index out of range: " ++ p))

/-- Modelled from the spec: compile-time validation of all nodes (section
4.3, steps 2-4 applied to each operation node in order). -/
def checkNodes (nodes : List NodeDef) : List NodeDef → Except Err Unit
  | [] => .ok ()
  | nd :: rest =>
    match nd.op with
    | none => checkNodes nodes rest
    | some o =>
      match registryArity o with
      | none => .error (.unknownOperation o)
      | some _ =>
        match checkInputs nodes (nd.inputs.getD []) with
        | .error e => .error e
        | .ok _ => checkNodes nodes rest

/-- Modelled from the spec: the compiler's validation pipeline — duplicate
id detection (step 1) then per-node reference, registry and arity checks
(steps 2-4); the first error is retained. -/
def compileCheck (nodes : List NodeDef) : Except Err Unit :=
  if dupFree (nodes.map NodeDef.id) then checkNodes nodes nodes
  else .error (.duplicateNode "duplicate node id")

/-- Modelled from the spec: evaluate node `i`, returning its output vector.
Constants and variables yield their value, placeholders read the feed,
operation nodes evaluate their inputs recursively and invoke the registry
executor.  The fuel bounds dependency depth; exhaustion signals a cycle. -/
def evalNode (nodes : List NodeDef) (feed : Feed) : Nat → Nat → Except Err (List String)
  | 0, _ => .error (.cycleDetected "cycle detected")
  | fuel + 1, i =>
    match nodes.get? i with
    | none => .error (.unknownNode "node index out of range")
    | some nd =>
      match nd.op with
      | some opName =>
        match (nd.inputs.getD []).mapM (fun p =>
          match parsePort p with
          | .error e => Except.error e
          | .ok (tid, k) =>
            match nodeIndex nodes tid with
            | none => Except.error (.unknownNode ("Unknown node: " ++ tid))
            | some j =>
              match evalNode nodes feed fuel j with
              | .error e => Except.error e
              | .ok vec =>
                match vec.get? k with
                | some x => Except.ok x
                | none => Except.error (.badPort ("output index out of range: " ++ p))) with
        | .error e => .error e
        | .ok ins => applyOp opName ins (nd.constants.getD [])
      | none =>
        match nd.type with
        | some "placeholder" =>
          match lookupKey feed nd.id with
          | some v => .ok [v]
          | none => .error (.missingFeed ("Missing feed for placeholder: " ++ nd.id))
        | some "constant" =>
          match nd.value with
          | some v => .ok [v]
          | none => .error (.schemaError ("constant without value: " ++ nd.id))
        | some "variable" =>
          match nd.value with
          | some v => .ok [v]
          | none => .error (.schemaError ("variable without value: " ++ nd.id))
        | some other => .error (.schemaError ("unknown node type: " ++ other))
        | none =>
          match nd.value with
          | some v => .ok [v]
          | none => .error (.schemaError ("node without type, op or value: " ++ nd.id))

/-- Modelled from the spec: execution of a graph against a target port —
validate (the throwaway CompiledGraph of the JSON path or a cached one
behaves identically), resolve the target, evaluate, and project the
requested output index. -/
def execGraph (nodes : List NodeDef) (target : String) (feed : Feed) : Except Err String :=
  match compileCheck nodes with
  | .error e => .error e
  | .ok _ =>
    match parsePort target with
    | .error e => .error e
    | .ok (tid, k) =>
      match nodeIndex nodes tid with
      | none => .error (.unknownNode ("Unknown node: " ++ tid))
      | some j =>
        match evalNode nodes feed (nodes.length + 1) j with
        | .error e => .error e
        | .ok vec =>
          match vec.get? k with
          | some x => .ok x
          | none => .error (.badPort ("output index out of range: " ++ target))

/-- Modelled from the spec: `backend.execute` — serialise the graph with a
top-level `target_node` and run the engine on it. -/
def backendExecute (nodes : List NodeDef) (targetNode : String) (feed : Feed) :
    Except Err String :=
  execGraph nodes targetNode feed

/-- The Python `CompiledGraph` wrapper: it snapshots the graph JSON handed to
its constructor; the C++ object's validity flag (modelled from the spec:
`valid = true` iff the compile-time checks succeed) is fixed at
construction. -/
structure CompiledGraph where
  snapshot : List NodeDef
  valid : Bool
deriving DecidableEq, Repr

/-- `CompiledGraph.__init__`: build the C++ compiled graph from the JSON. -/
def CompiledGraph.init (graphJson : List NodeDef) : CompiledGraph :=
  ⟨graphJson, match compileCheck graphJson with
    | .ok _ => true
    | .error _ => false⟩

/-- `CompiledGraph.run`: execute the compiled snapshot on a target and
feed. -/
def CompiledGraph.run (c : CompiledGraph) (target : String) (feed : Feed) :
    Except Err String :=
  execGraph c.snapshot target feed

/-- `CompiledGraph.run_auto`: identical semantics to `run` (the heuristic
dispatch is reserved). -/
def CompiledGraph.run_auto (c : CompiledGraph) (target : String) (feed : Feed) :
    Except Err String :=
  execGraph c.snapshot target feed

/-- `CompiledGraph.is_valid`. -/
def CompiledGraph.is_valid (c : CompiledGraph) : Bool :=
  c.valid

/-- The Python `Graph` object: `_nodes` (the node-definition list),
`_node_counter`, the keys of `_node_objects`, and the `_compiled_graph`
attribute set by `run_optimized` (absent or `None` is `none`). -/
structure Graph where
  nodes : List NodeDef
  nodeCounter : Nat
  nodeObjects : List String
  compiledGraph : Option CompiledGraph
deriving DecidableEq, Repr

/-- `Graph.__init__`: an empty graph. -/
def emptyGraph : Graph :=
  ⟨[], 0, [], none⟩

/-- The auto-generated id `f"node_{counter}"`. -/
def autoId (k : Nat) : String :=
  "node_" ++ Nat.repr k

/-- `Graph._generate_node_id`: auto-generate `node_N` (incrementing the
counter) or validate a supplied name against `_node_objects`, raising
`ValueError` on a collision.  Returns the id and the updated counter. -/
def Graph._generate_node_id (g : Graph) (name : Option String) :
    Except Err (String × Nat) :=
  match name with
  | none => .ok (autoId g.nodeCounter, g.nodeCounter + 1)
  | some n =>
    if hasKey g.nodeObjects n then
      .error (.valueError ("Node ID '" ++ n ++ "' already exists in graph"))
    else
      .ok (n, g.nodeCounter)

/-- `Graph._add_node`: append the node definition to `_nodes` and register
the node object under its id in `_node_objects`. -/
def Graph._add_node (g : Graph) (d : NodeDef) : Graph :=
  { nodes := g.nodes ++ [d], nodeCounter := g.nodeCounter,
    nodeObjects := dictInsertKey g.nodeObjects d.id,
    compiledGraph := g.compiledGraph }

/-- `Graph.constant`. -/
def Graph.constant (g : Graph) (value : String) (name : Option String) :
    Graph × Except Err String :=
  match Graph._generate_node_id g name with
  | .error e => (g, .error e)
  | .ok (nid, cnt) =>
    (Graph._add_node { g with nodeCounter := cnt } (constDict nid value), .ok nid)

/-- `Graph.placeholder`. -/
def Graph.placeholder (g : Graph) (name : Option String) :
    Graph × Except Err String :=
  match Graph._generate_node_id g name with
  | .error e => (g, .error e)
  | .ok (nid, cnt) =>
    (Graph._add_node { g with nodeCounter := cnt } (placeholderDict nid), .ok nid)

/-- `Graph.variable`. -/
def Graph.«variable» (g : Graph) (value : String) (name : Option String) :
    Graph × Except Err String :=
  match Graph._generate_node_id g name with
  | .error e => (g, .error e)
  | .ok (nid, cnt) =>
    (Graph._add_node { g with nodeCounter := cnt } (varDict nid value), .ok nid)

/-- `Graph._add_operation_node`. -/
def Graph._add_operation_node (g : Graph) (opName : String) (inputs : List String)
    (constants : List String) (name : Option String) : Graph × Except Err String :=
  match Graph._generate_node_id g name with
  | .error e => (g, .error e)
  | .ok (nid, cnt) =>
    (Graph._add_node { g with nodeCounter := cnt } (opDict nid opName inputs constants),
      .ok nid)

/-- `Graph.to_json`: `{"nodes": self._nodes}` — the node definitions
verbatim, in insertion order. -/
def Graph.to_json (g : Graph) : List NodeDef :=
  g.nodes

/-- `Graph.run`: when a cached `_compiled_graph` exists it is used
unconditionally; otherwise the graph is serialised with the target and
handed to `backend.execute`. -/
def Graph.run (g : Graph) (target : String) (feed : Feed) :
    Graph × Except Err String :=
  match g.compiledGraph with
  | some c => (g, CompiledGraph.run c target feed)
  | none => (g, backendExecute g.nodes target feed)

/-- `Graph.run_optimized`: reuse or build-and-cache a `CompiledGraph` from
`to_json`, raise `RuntimeError` when it is invalid, then run it. -/
def Graph.run_optimized (g : Graph) (target : String) (feed : Feed) :
    Graph × Except Err String :=
  let c := match g.compiledGraph with
    | some c0 => c0
    | none => CompiledGraph.init (Graph.to_json g)
  let g' := { g with compiledGraph := some c }
  if c.is_valid then (g', CompiledGraph.run c target feed)
  else (g', .error (.runtimeError "Failed to compile graph for optimized execution"))

/-- `Graph.compile`: a fresh `CompiledGraph` from `to_json`; the graph
itself is untouched (nothing is cached). -/
def Graph.compile (g : Graph) : Graph × CompiledGraph :=
  (g, CompiledGraph.init (Graph.to_json g))

/-- A Python `Node` object as seen by callers: its id and its type tag. -/
structure NodeObj where
  id : String
  type : String
deriving DecidableEq, Repr

/-- A `MultiOutputNode` handle: a thin wrapper carrying the producing
node's id (the owning-graph reference is passed explicitly). -/
structure MultiOutputNode where
  id : String
deriving DecidableEq, Repr

/-- A Python value used to index a `MultiOutputNode`: an integer, or a
value of some other type (carrying its type name). -/
inductive PyIndex
  | intIndex (k : Int)
  | nonIntIndex (typeName : String)
deriving DecidableEq, Repr

/-- `MultiOutputNode.__getitem__`: an integer index yields a pseudo-node
whose id is `f"{self.id}:{index}"`; any other index raises `TypeError`.
The graph is not touched. -/
def MultiOutputNode.__getitem__ (g : Graph) (m : MultiOutputNode) (ix : PyIndex) :
    Graph × Except Err NodeObj :=
  match ix with
  | .nonIntIndex t =>
    (g, .error (.typeError ("Index must be an integer, got " ++ t)))
  | .intIndex k =>
    (g, .ok ⟨m.id ++ ":" ++ toString k, "indexed_output"⟩)

/-- `ops.split`: add a `split` operation node, then replace its entry in
`_node_objects` by a `MultiOutputNode` wrapper and return that wrapper. -/
def Ops.split (g : Graph) (nid : String) (delimiter : String) (name : Option String) :
    Graph × Except Err MultiOutputNode :=
  match Graph._add_operation_node g "split" [nid] [delimiter] name with
  | (g1, .error e) => (g1, .error e)
  | (g1, .ok rid) =>
    ({ g1 with nodeObjects := dictInsertKey g1.nodeObjects rid }, .ok ⟨rid⟩)

/-- `ops.repeat`: raise `ValueError` when `count < 0`, otherwise add a
`repeat` operation node with `constants=[str(count)]`. -/
def Ops.«repeat» (g : Graph) (nid : String) (count : Int) (name : Option String) :
    Graph × Except Err String :=
  if count < 0 then (g, .error (.valueError "count must be non-negative"))
  else Graph._add_operation_node g "repeat" [nid] [toString count] name

/-- `ops.pad_left`: raise `ValueError` unless `fill_char` is one character,
otherwise add a `pad_left` node with `constants=[str(width), fill_char]`. -/
def Ops.pad_left (g : Graph) (nid : String) (width : Int) (fillChar : String)
    (name : Option String) : Graph × Except Err String :=
  if fillChar.length ≠ 1 then
    (g, .error (.valueError "fill_char must be a single character"))
  else Graph._add_operation_node g "pad_left" [nid] [toString width, fillChar] name

/-- `ops.pad_right`: same validation as `pad_left`, on the right side. -/
def Ops.pad_right (g : Graph) (nid : String) (width : Int) (fillChar : String)
    (name : Option String) : Graph × Except Err String :=
  if fillChar.length ≠ 1 then
    (g, .error (.valueError "fill_char must be a single character"))
  else Graph._add_operation_node g "pad_right" [nid] [toString width, fillChar] name

/-- `Graph.__enter__`: entering `with Graph() as g` while another graph
context is active raises `RuntimeError`; otherwise the global active-graph
slot is set to this graph, which is returned. -/
def Graph.__enter__ (slot : Option Graph) (g : Graph) :
    Option Graph × Except Err Graph :=
  match slot with
  | some g0 => (some g0, .error (.runtimeError "Cannot nest Graph context managers"))
  | none => (some g, .ok g)

/-- `Graph.__exit__`: unconditionally resets the active-graph slot to
`None` and returns `False`, so an exception from the body propagates. -/
def Graph.__exit__ (_slot : Option Graph) (_raised : Bool) : Option Graph × Bool :=
  (none, false)

/-- `get_active_graph`: raises `RuntimeError` when no graph context is
active. -/
def get_active_graph (slot : Option Graph) : Except Err Graph :=
  match slot with
  | none =>
    .error (.runtimeError
      "No active graph. Use 'with Graph() as g:' or create Graph explicitly.")
  | some g => .ok g

/-- A Python callable argument: a function (an opaque token) or a value of
another type, carrying its type name for the `callable(func)` check. -/
inductive PyFunc
  | fn (tok : Nat)
  | notFn (typeName : String)
deriving DecidableEq, Repr

/-- The `_custom_operations` registry of `custom_ops.py`: name to
(function token, is_multi_output), with Python-dict insertion order. -/
abbrev Registry := List (String × Nat × Bool)

/-- `custom_ops.register_operation`: `TypeError` for a non-callable,
`ValueError` when the name exists and `replace` is false, otherwise insert
or replace the dict entry. -/
def register_operation (reg : Registry) (name : String) (func : PyFunc)
    (multiOutput replaceFlag : Bool) : Registry × Except Err Unit :=
  match func with
  | .notFn t =>
    (reg, .error (.typeError ("Operation function must be callable, got " ++ t)))
  | .fn tok =>
    if hasKeyA reg name && !replaceFlag then
      (reg, .error (.valueError
        ("Operation '" ++ name ++ "' already exists. Use replace=True to override.")))
    else
      (dictInsert reg name (tok, multiOutput), .ok ())

/-- `custom_ops.is_custom_operation`. -/
def is_custom_operation (reg : Registry) (name : String) : Bool :=
  hasKeyA reg name

/-- `custom_ops.get_custom_operation`. -/
def get_custom_operation (reg : Registry) (name : String) : Option (Nat × Bool) :=
  lookupKey reg name

/-- `custom_ops.list_custom_operations`: the dict keys in insertion
order. -/
def list_custom_operations (reg : Registry) : List String :=
  reg.map Prod.fst

/-- The `HybridOperationManager` of `hybrid_ops.py` (loaded libraries are
kept as their paths). -/
structure HybridOperationManager where
  python_operations : List (String × Nat)
  cpp_operations : List (String × Nat)
  loaded_libraries : List String
  operation_priorities : List (String × String)
deriving DecidableEq, Repr

/-- `HybridOperationManager.register_python_operation`: returns `False`
without touching the manager when the name is registered and `override` is
false; otherwise stores the function, marks the priority `python` and
returns `True`. -/
def HybridOperationManager.register_python_operation (m : HybridOperationManager)
    (name : String) (tok : Nat) (override : Bool) : HybridOperationManager × Bool :=
  if hasKeyA m.python_operations name && !override then (m, false)
  else
    ({ python_operations := dictInsert m.python_operations name tok,
       cpp_operations := m.cpp_operations,
       loaded_libraries := m.loaded_libraries,
       operation_priorities := dictInsert m.operation_priorities name "python" },
      true)

/-- A builder call on a `Graph`: the four node-creating entry points. -/
inductive Cmd
  | constant (value : String) (name : Option String)
  | placeholder (name : Option String)
  | «variable» (value : String) (name : Option String)
  | operation (op : String) (inputs : List String) (constants : List String)
      (name : Option String)
deriving DecidableEq, Repr

/-- The optional node name supplied by a builder call. -/
def cmdName : Cmd → Option String
  | .constant _ nm => nm
  | .placeholder nm => nm
  | .«variable» _ nm => nm
  | .operation _ _ _ nm => nm

/-- Run one builder call. -/
def runCmd (g : Graph) : Cmd → Graph × Except Err String
  | .constant v nm => Graph.constant g v nm
  | .placeholder nm => Graph.placeholder g nm
  | .«variable» v nm => Graph.«variable» g v nm
  | .operation op ins cs nm => Graph._add_operation_node g op ins cs nm

/-- Run a sequence of builder calls, stopping at the first exception (as a
straight-line Python program would). -/
def runCmds (g : Graph) : List Cmd → Graph × Except Err Unit
  | [] => (g, .ok ())
  | c :: cs =>
    match runCmd g c with
    | (g', .ok _) => runCmds g' cs
    | (g', .error e) => (g', .error e)

/-- The id handed out by `_generate_node_id` on success, with the updated
counter. -/
def genId (cnt : Nat) : Option String → String × Nat
  | some n => (n, cnt)
  | none => (autoId cnt, cnt + 1)

/-- The node definitions a successful builder-call sequence emits, starting
from the given counter, in call order. -/
def emittedDefs (cnt : Nat) : List Cmd → List NodeDef
  | [] => []
  | c :: cs =>
    match c with
    | .constant v nm =>
      let (nid, cnt') := genId cnt nm
      constDict nid v :: emittedDefs cnt' cs
    | .placeholder nm =>
      let (nid, cnt') := genId cnt nm
      placeholderDict nid :: emittedDefs cnt' cs
    | .«variable» v nm =>
      let (nid, cnt') := genId cnt nm
      varDict nid v :: emittedDefs cnt' cs
    | .operation op ins consts nm =>
      let (nid, cnt') := genId cnt nm
      opDict nid op ins consts :: emittedDefs cnt' cs

/-- A name is safe when it cannot coincide with any auto-generated id:
its first five characters are not `node_`. -/
def safeStr (s : String) : Bool :=
  if s.data.take 5 = "node_".data then false else true

/-- A builder call is name-safe when it supplies no name or a safe one. -/
def cmdNameSafe (c : Cmd) : Bool :=
  match cmdName c with
  | none => true
  | some n => safeStr n

/-- Positional decimal value of a digit-character list (ASCII codes). -/
def dval : List Char → Nat
  | [] => 0
  | c :: cs => (c.toNat - 48) * 10 ^ cs.length + dval cs

/-- Well-formedness of a builder-produced graph: the node-definition ids
are exactly the registered object keys, they are pairwise distinct, and
every id is either an already-consumed auto id or a safe supplied name. -/
def GoodGraph (g : Graph) : Prop :=
  g.nodes.map NodeDef.id = g.nodeObjects ∧ g.nodeObjects.Nodup ∧
  ∀ x ∈ g.nodeObjects, (∃ k, k < g.nodeCounter ∧ x = autoId k) ∨ safeStr x = true

/-- The graph of the repository test `test_graph_modification_after_optimization`:
a placeholder `text` and an operation node `upper = to_upper(text)`. -/
def c2_graph0 : Graph :=
  (runCmds emptyGraph [Cmd.placeholder (some "text"),
    Cmd.operation "to_upper" ["text"] [] (some "upper")]).1

/-- `c2_graph0` after `run_optimized("upper", {"text": "hello"})` cached a
CompiledGraph. -/
def c2_graph1 : Graph :=
  (Graph.run_optimized c2_graph0 "upper" [("text", "hello")]).1

/-- `c2_graph1` after appending the constant node `modification`. -/
def c2_graph2 : Graph :=
  (Graph.constant c2_graph1 "_modified" (some "modification")).1

theorem dval_append_last (xs : List Char) (c : Char) :
    dval (xs ++ [c]) = 10 * dval xs + (c.toNat - 48) := by
  induction xs with
  | nil => simp [dval]
  | cons x xs ih =>
    simp only [List.cons_append, dval, ih, List.append_eq, List.length_append,
      List.length_cons, List.length_nil]
    ring

theorem toDigitsCore_acc (fuel : Nat) : ∀ (n : Nat) (ds : List Char),
    Nat.toDigitsCore 10 fuel n ds = Nat.toDigitsCore 10 fuel n [] ++ ds := by
  induction fuel with
  | zero => intro n ds; simp [Nat.toDigitsCore]
  | succ f ih =>
    intro n ds
    simp only [Nat.toDigitsCore]
    by_cases h : n / 10 = 0
    · simp [h]
    · simp only [h, if_false]
      rw [ih (n / 10) (Nat.digitChar (n % 10) :: ds), ih (n / 10) [Nat.digitChar (n % 10)]]
      simp

theorem digitChar_val (m : Nat) (h : m < 10) : (Nat.digitChar m).toNat - 48 = m := by
  interval_cases m <;> decide

theorem dval_toDigitsCore (fuel : Nat) : ∀ n : Nat, n < 10 ^ fuel →
    dval (Nat.toDigitsCore 10 fuel n []) = n := by
  induction fuel with
  | zero =>
    intro n hn
    interval_cases n
    simp [Nat.toDigitsCore, dval]
  | succ f ih =>
    intro n hn
    simp only [Nat.toDigitsCore]
    by_cases h : n / 10 = 0
    · simp [h, dval, digitChar_val (n % 10) (Nat.mod_lt n (by norm_num))]
      omega
    · simp only [h, if_false]
      rw [toDigitsCore_acc, dval_append_last]
      have hdiv : n / 10 < 10 ^ f := by
        have : 10 ^ (f + 1) = 10 ^ f * 10 := by ring
        omega
      rw [ih (n / 10) hdiv, digitChar_val (n % 10) (Nat.mod_lt n (by norm_num))]
      omega

theorem dval_toDigits (n : Nat) : dval (Nat.toDigits 10 n) = n := by
  have hb : n < 10 ^ (n + 1) := by
    calc n < 2 ^ n := Nat.lt_two_pow n
    _ ≤ 10 ^ n := Nat.pow_le_pow_left (by norm_num) n
    _ ≤ 10 ^ (n + 1) := Nat.pow_le_pow_right (by norm_num) (Nat.le_succ n)
  exact dval_toDigitsCore (n + 1) n hb

theorem repr_inj {a b : Nat} (h : Nat.repr a = Nat.repr b) : a = b := by
  have hd : Nat.toDigits 10 a = Nat.toDigits 10 b := congrArg String.data h
  have := congrArg dval hd
  rwa [dval_toDigits, dval_toDigits] at this

theorem string_data_inj {a b : String} (h : a.data = b.data) : a = b := by
  cases a; cases b; exact congrArg String.mk h

theorem autoId_inj {a b : Nat} (h : autoId a = autoId b) : a = b := by
  have hd := congrArg String.data h
  simp only [autoId, String.data_append] at hd
  exact repr_inj (string_data_inj (List.append_cancel_left hd))

theorem autoId_take (k : Nat) : (autoId k).data.take 5 = "node_".data := by
  have h5 : ("node_".data).length = 5 := rfl
  rw [autoId, String.data_append, ← h5, List.take_left]

theorem safeStr_autoId (k : Nat) : safeStr (autoId k) = false := by
  simp [safeStr, autoId_take]

theorem safeStr_ne_autoId {s : String} (h : safeStr s = true) (k : Nat) :
    s ≠ autoId k := by
  intro he
  rw [he, safeStr_autoId] at h
  exact Bool.false_ne_true h

theorem hasKey_false_iff (xs : List String) (k : String) :
    hasKey xs k = false ↔ k ∉ xs := by
  induction xs with
  | nil => simp [hasKey]
  | cons x xs ih =>
    by_cases h : x = k
    · simp [hasKey, h]
    · simp [hasKey, h, ih]
      intro hk
      exact fun he => h he.symm

theorem dictInsertKey_fresh {xs : List String} {k : String}
    (h : hasKey xs k = false) : dictInsertKey xs k = xs ++ [k] := by
  simp [dictInsertKey, h]

theorem lookupKey_dictInsert {α : Type} (reg : List (String × α)) (k : String) (v : α) :
    lookupKey (dictInsert reg k v) k = some v := by
  induction reg with
  | nil => simp [dictInsert, lookupKey]
  | cons p rest ih =>
    by_cases h : p.1 = k
    · simp [dictInsert, h, lookupKey]
    · simp [dictInsert, h, lookupKey, ih]

theorem mem_map_fst_dictInsert {α : Type} (reg : List (String × α)) (k : String) (v : α) :
    k ∈ (dictInsert reg k v).map Prod.fst := by
  induction reg with
  | nil => simp [dictInsert]
  | cons p rest ih =>
    by_cases h : p.1 = k
    · simp [dictInsert, h]
    · simp only [dictInsert, h, if_false, List.map_cons]
      exact List.mem_cons_of_mem _ ih

theorem goodGraph_empty : GoodGraph emptyGraph := by
  refine ⟨rfl, List.nodup_nil, ?_⟩
  intro x hx
  simp [emptyGraph] at hx

theorem goodGraph_add {g : Graph} {cnt : Nat} {d : NodeDef} (hg : GoodGraph g)
    (hfresh : hasKey g.nodeObjects d.id = false)
    (hcnt : g.nodeCounter ≤ cnt)
    (hid : (∃ k, k < cnt ∧ d.id = autoId k) ∨ safeStr d.id = true) :
    GoodGraph (Graph._add_node { g with nodeCounter := cnt } d) := by
  obtain ⟨h1, h2, h3⟩ := hg
  have hnm : d.id ∉ g.nodeObjects := (hasKey_false_iff _ _).mp hfresh
  refine ⟨?_, ?_, ?_⟩
  · simp [Graph._add_node, dictInsertKey_fresh hfresh, h1]
  · simp only [Graph._add_node, dictInsertKey_fresh hfresh]
    refine List.Nodup.append h2 (List.nodup_singleton _) ?_
    intro a ha hb
    have : a = d.id := by simpa using hb
    exact hnm (this ▸ ha)
  · intro x hx
    simp only [Graph._add_node, dictInsertKey_fresh hfresh] at hx
    rcases List.mem_append.mp hx with hx | hx
    · rcases h3 x hx with ⟨k, hk, he⟩ | hs
      · exact Or.inl ⟨k, lt_of_lt_of_le hk hcnt, he⟩
      · exact Or.inr hs
    · have hxd : x = d.id := by simpa using hx
      rw [hxd]
      exact hid

theorem auto_fresh {g : Graph} (hg : GoodGraph g) :
    hasKey g.nodeObjects (autoId g.nodeCounter) = false := by
  rw [hasKey_false_iff]
  intro hmem
  rcases hg.2.2 _ hmem with ⟨k, hk, he⟩ | hs
  · have := autoId_inj he
    omega
  · rw [safeStr_autoId] at hs
    exact Bool.false_ne_true hs

theorem goodGraph_genOk {g : Graph} {nm : Option String} {nid : String} {cnt : Nat}
    (hg : GoodGraph g) (hsafe : ∀ n, nm = some n → safeStr n = true)
    (hgen : Graph._generate_node_id g nm = .ok (nid, cnt)) {d : NodeDef}
    (hd : d.id = nid) :
    GoodGraph (Graph._add_node { g with nodeCounter := cnt } d) := by
  cases nm with
  | none =>
    simp only [Graph._generate_node_id, Except.ok.injEq, Prod.mk.injEq] at hgen
    obtain ⟨hnid, hcnt⟩ := hgen
    refine goodGraph_add hg ?_ (hcnt ▸ Nat.le_succ _) ?_
    · rw [hd, ← hnid]
      exact auto_fresh hg
    · exact Or.inl ⟨g.nodeCounter, by omega, by rw [hd, ← hnid]⟩
  | some n =>
    by_cases h : hasKey g.nodeObjects n = true
    · simp [Graph._generate_node_id, h] at hgen
    · have hf : hasKey g.nodeObjects n = false := by
        cases hh : hasKey g.nodeObjects n
        · rfl
        · exact absurd hh h
      simp only [Graph._generate_node_id, hf, Bool.false_eq_true, if_false,
        Except.ok.injEq, Prod.mk.injEq] at hgen
      obtain ⟨hnid, hcnt⟩ := hgen
      refine goodGraph_add hg ?_ (by omega) ?_
      · rw [hd, ← hnid]
        exact hf
      · exact Or.inr (by rw [hd, ← hnid]; exact hsafe n rfl)

theorem goodGraph_runCmd {g : Graph} {c : Cmd} (hg : GoodGraph g)
    (hs : cmdNameSafe c = true) : GoodGraph (runCmd g c).1 := by
  have hsafe : ∀ n, cmdName c = some n → safeStr n = true := by
    intro n hn
    unfold cmdNameSafe at hs
    rw [hn] at hs
    exact hs
  cases c with
  | constant v nm =>
    cases hgen : Graph._generate_node_id g nm with
    | error e => simp [runCmd, Graph.constant, hgen]; exact hg
    | ok p =>
      obtain ⟨nid, cnt⟩ := p
      simp only [runCmd, Graph.constant, hgen]
      exact goodGraph_genOk hg (fun n hn => hsafe n (by simpa [cmdName] using hn)) hgen rfl
  | placeholder nm =>
    cases hgen : Graph._generate_node_id g nm with
    | error e => simp [runCmd, Graph.placeholder, hgen]; exact hg
    | ok p =>
      obtain ⟨nid, cnt⟩ := p
      simp only [runCmd, Graph.placeholder, hgen]
      exact goodGraph_genOk hg (fun n hn => hsafe n (by simpa [cmdName] using hn)) hgen rfl
  | «variable» v nm =>
    cases hgen : Graph._generate_node_id g nm with
    | error e => simp [runCmd, Graph.«variable», hgen]; exact hg
    | ok p =>
      obtain ⟨nid, cnt⟩ := p
      simp only [runCmd, Graph.«variable», hgen]
      exact goodGraph_genOk hg (fun n hn => hsafe n (by simpa [cmdName] using hn)) hgen rfl
  | operation op ins cs nm =>
    cases hgen : Graph._generate_node_id g nm with
    | error e => simp [runCmd, Graph._add_operation_node, hgen]; exact hg
    | ok p =>
      obtain ⟨nid, cnt⟩ := p
      simp only [runCmd, Graph._add_operation_node, hgen]
      exact goodGraph_genOk hg (fun n hn => hsafe n (by simpa [cmdName] using hn)) hgen rfl

theorem goodGraph_runCmds {cmds : List Cmd} : ∀ {g : Graph}, GoodGraph g →
    cmds.all cmdNameSafe = true → GoodGraph (runCmds g cmds).1 := by
  induction cmds with
  | nil => intro g hg _; exact hg
  | cons c cs ih =>
    intro g hg hs
    rw [List.all_cons, Bool.and_eq_true] at hs
    have hgc := goodGraph_runCmd hg hs.1
    cases hrc : runCmd g c with
    | mk g' r =>
      rw [hrc] at hgc
      cases r with
      | ok v => simpa [runCmds, hrc] using ih hgc hs.2
      | error e => simpa [runCmds, hrc] using hgc

theorem runCmd_collision {g : Graph} {c : Cmd} {n : String}
    (hn : cmdName c = some n) (hk : hasKey g.nodeObjects n = true) :
    runCmd g c =
      (g, .error (.valueError ("Node ID '" ++ n ++ "' already exists in graph"))) := by
  cases c <;>
    simp only [cmdName, Option.some.injEq] at hn <;>
    subst hn <;>
    simp [runCmd, Graph.constant, Graph.placeholder, Graph.«variable»,
      Graph._add_operation_node, Graph._generate_node_id, hk]

theorem genOk_genId {g : Graph} {nm : Option String} {nid : String} {cnt : Nat}
    (hgen : Graph._generate_node_id g nm = .ok (nid, cnt)) :
    genId g.nodeCounter nm = (nid, cnt) := by
  cases nm with
  | none =>
    simp only [Graph._generate_node_id, Except.ok.injEq, Prod.mk.injEq] at hgen
    simp [genId, hgen.1, hgen.2]
  | some n =>
    by_cases h : hasKey g.nodeObjects n = true
    · simp [Graph._generate_node_id, h] at hgen
    · have hf : hasKey g.nodeObjects n = false := by
        cases hh : hasKey g.nodeObjects n
        · rfl
        · exact absurd hh h
      simp only [Graph._generate_node_id, hf, Bool.false_eq_true, if_false,
        Except.ok.injEq, Prod.mk.injEq] at hgen
      simp [genId, hgen.1, hgen.2]

theorem emittedDefs_length (cmds : List Cmd) : ∀ cnt : Nat,
    (emittedDefs cnt cmds).length = cmds.length := by
  induction cmds with
  | nil => intro cnt; simp [emittedDefs]
  | cons c cs ih =>
    intro cnt
    cases c with
    | constant v nm =>
      rcases hgg : genId cnt nm with ⟨nid, cnt'⟩
      simp [emittedDefs, hgg, ih]
    | placeholder nm =>
      rcases hgg : genId cnt nm with ⟨nid, cnt'⟩
      simp [emittedDefs, hgg, ih]
    | «variable» v nm =>
      rcases hgg : genId cnt nm with ⟨nid, cnt'⟩
      simp [emittedDefs, hgg, ih]
    | operation op ins consts nm =>
      rcases hgg : genId cnt nm with ⟨nid, cnt'⟩
      simp [emittedDefs, hgg, ih]

theorem runCmds_nodes {cmds : List Cmd} : ∀ {g : Graph},
    (runCmds g cmds).2 = .ok () →
    (runCmds g cmds).1.nodes = g.nodes ++ emittedDefs g.nodeCounter cmds := by
  induction cmds with
  | nil => intro g _; simp [runCmds, emittedDefs]
  | cons c cs ih =>
    intro g h
    cases c with
    | constant v nm =>
      cases hgen : Graph._generate_node_id g nm with
      | error e =>
        rw [runCmds, runCmd, Graph.constant, hgen] at h
        simp at h
      | ok p =>
        obtain ⟨nid, cnt⟩ := p
        have hc : runCmd g (Cmd.constant v nm) =
            (Graph._add_node { g with nodeCounter := cnt } (constDict nid v), .ok nid) := by
          simp [runCmd, Graph.constant, hgen]
        rw [runCmds, hc] at h ⊢
        rw [ih h]
        simp [Graph._add_node, emittedDefs, genOk_genId hgen]
    | placeholder nm =>
      cases hgen : Graph._generate_node_id g nm with
      | error e =>
        rw [runCmds, runCmd, Graph.placeholder, hgen] at h
        simp at h
      | ok p =>
        obtain ⟨nid, cnt⟩ := p
        have hc : runCmd g (Cmd.placeholder nm) =
            (Graph._add_node { g with nodeCounter := cnt } (placeholderDict nid), .ok nid) := by
          simp [runCmd, Graph.placeholder, hgen]
        rw [runCmds, hc] at h ⊢
        rw [ih h]
        simp [Graph._add_node, emittedDefs, genOk_genId hgen]
    | «variable» v nm =>
      cases hgen : Graph._generate_node_id g nm with
      | error e =>
        rw [runCmds, runCmd, Graph.«variable», hgen] at h
        simp at h
      | ok p =>
        obtain ⟨nid, cnt⟩ := p
        have hc : runCmd g (Cmd.«variable» v nm) =
            (Graph._add_node { g with nodeCounter := cnt } (varDict nid v), .ok nid) := by
          simp [runCmd, Graph.«variable», hgen]
        rw [runCmds, hc] at h ⊢
        rw [ih h]
        simp [Graph._add_node, emittedDefs, genOk_genId hgen]
    | operation op ins consts nm =>
      cases hgen : Graph._generate_node_id g nm with
      | error e =>
        rw [runCmds, runCmd, Graph._add_operation_node, hgen] at h
        simp at h
      | ok p =>
        obtain ⟨nid, cnt⟩ := p
        have hc : runCmd g (Cmd.operation op ins consts nm) =
            (Graph._add_node { g with nodeCounter := cnt } (opDict nid op ins consts),
              .ok nid) := by
          simp [runCmd, Graph._add_operation_node, hgen]
        rw [runCmds, hc] at h ⊢
        rw [ih h]
        simp [Graph._add_node, emittedDefs, genOk_genId hgen]

theorem execGraph_ok_check {nodes : List NodeDef} {t : String} {f : Feed} {s : String}
    (h : execGraph nodes t f = .ok s) : compileCheck nodes = .ok () := by
  cases hc : compileCheck nodes with
  | error e =>
    rw [execGraph, hc] at h
    simp at h
  | ok u =>
    cases u
    rfl

/-- C1 counterexample: the equality of the three entry points fails on a
reachable acyclic graph.  On `c2_graph2` (built by `run_optimized` then an
append, so its cached CompiledGraph is stale) the target `modification` is
a node of the graph, a fresh `compile().run` returns its value
`"_modified"`, yet `run` and `run_optimized` both serve the stale cached
snapshot and fail with UnknownNode — `run` and `compile().run` disagree. -/
theorem run_entry_points_disagree_counterexample :
    CompiledGraph.run (Graph.compile c2_graph2).2 "modification" [] = .ok "_modified" ∧
    (Graph.run c2_graph2 "modification" []).2 =
      .error (.unknownNode "Unknown node: modification") ∧
    (Graph.run_optimized c2_graph2 "modification" []).2 =
      .error (.unknownNode "Unknown node: modification") ∧
    (Graph.run c2_graph2 "modification" []).2 ≠
      CompiledGraph.run (Graph.compile c2_graph2).2 "modification" [] :=
  ⟨by decide, by decide, by decide, by decide⟩

/-- C1 (amended): for every graph whose cached CompiledGraph (if any) was
compiled from the graph's current contents — so every graph with no cache,
and every graph not mutated since its cache was built — and every target
and feed on which execution succeeds with result `s`, the three evaluation
entry points `run`, `compile().run` and `run_optimized` all return `s`. -/
theorem run_entry_points_agree (g : Graph) (t : String) (f : Feed) (s : String)
    (hcache : g.compiledGraph = none ∨
      g.compiledGraph = some (CompiledGraph.init (Graph.to_json g)))
    (hok : execGraph (Graph.to_json g) t f = .ok s) :
    (Graph.run g t f).2 = .ok s ∧
    CompiledGraph.run (Graph.compile g).2 t f = .ok s ∧
    (Graph.run_optimized g t f).2 = .ok s := by
  have hcheck : compileCheck (Graph.to_json g) = .ok () := execGraph_ok_check hok
  refine ⟨?_, ?_, ?_⟩
  · rcases hcache with hc | hc
    · rw [Graph.run, hc]
      exact hok
    · rw [Graph.run, hc]
      simpa [CompiledGraph.run, CompiledGraph.init] using hok
  · simpa [Graph.compile, CompiledGraph.run, CompiledGraph.init] using hok
  · rcases hcache with hc | hc <;>
      simp only [Graph.run_optimized, hc] <;>
      simp [CompiledGraph.init, CompiledGraph.is_valid, hcheck, CompiledGraph.run, hok]

/-- C1 witness: on the two-node graph `x = "hello"; u = to_upper(x)` all
three entry points return `"HELLO"`. -/
theorem run_entry_points_agree_witness :
    (Graph.run ⟨[constDict "x" "hello", opDict "u" "to_upper" ["x"] []], 2,
      ["x", "u"], none⟩ "u" []).2 = .ok "HELLO" ∧
    CompiledGraph.run (Graph.compile ⟨[constDict "x" "hello",
      opDict "u" "to_upper" ["x"] []], 2, ["x", "u"], none⟩).2 "u" [] = .ok "HELLO" ∧
    (Graph.run_optimized ⟨[constDict "x" "hello", opDict "u" "to_upper" ["x"] []], 2,
      ["x", "u"], none⟩ "u" []).2 = .ok "HELLO" :=
  run_entry_points_agree _ "u" [] "HELLO" (Or.inl rfl) (by decide)

/-- C2: evaluation of the code at the failing input of the cache-invalidation
claim.  After `run_optimized` has cached a CompiledGraph and a node
`modification` is appended, the next `run` still uses the stale cached
snapshot: the original target still evaluates correctly, but running the
newly appended node fails with UnknownNode even though JSON-based execution
of the current graph would return its value — so `run` neither recompiled
nor fell back. -/
theorem stale_compiled_graph_reused :
    (Graph.run_optimized c2_graph0 "upper" [("text", "hello")]).2 = .ok "HELLO" ∧
    c2_graph2.nodes.map NodeDef.id = ["text", "upper", "modification"] ∧
    c2_graph2.compiledGraph = some (CompiledGraph.init (Graph.to_json c2_graph0)) ∧
    (Graph.run c2_graph2 "upper" [("text", "hello")]).2 = .ok "HELLO" ∧
    (Graph.run c2_graph2 "modification" []).2 =
      .error (.unknownNode "Unknown node: modification") ∧
    backendExecute (Graph.to_json c2_graph2) "modification" [] = .ok "_modified" :=
  ⟨by decide, by decide, by decide, by decide, by decide, by decide⟩

/-- C3 (amended): for every builder-call sequence whose supplied names never
start with `node_`, the node ids stay pairwise distinct; and for every graph,
a builder call whose supplied name is already registered fails with
`ValueError` (the spec's DuplicateNode) and leaves the graph unchanged. -/
theorem node_ids_distinct_of_safe_names (cmds : List Cmd) (g : Graph) (c : Cmd)
    (n : String) (hsafe : cmds.all cmdNameSafe = true) :
    ((runCmds emptyGraph cmds).1.nodes.map NodeDef.id).Nodup ∧
    (cmdName c = some n → hasKey g.nodeObjects n = true →
      runCmd g c =
        (g, .error (.valueError ("Node ID '" ++ n ++ "' already exists in graph")))) := by
  constructor
  · have hg := goodGraph_runCmds goodGraph_empty hsafe
    rw [hg.1]
    exact hg.2.1
  · intro hn hk
    exact runCmd_collision hn hk

/-- C3 counterexample: supplying the name `node_0` and then creating one
auto-named node puts two nodes with id `node_0` into the graph — both
builder calls succeed and the id list has a duplicate, refuting the claim
that ids stay pairwise distinct for every builder sequence. -/
theorem node_id_collision_counterexample :
    (runCmds emptyGraph [Cmd.constant "a" (some "node_0"), Cmd.constant "b" none]).2 =
      .ok () ∧
    (runCmds emptyGraph [Cmd.constant "a" (some "node_0"),
      Cmd.constant "b" none]).1.nodes.map NodeDef.id = ["node_0", "node_0"] ∧
    ¬ ((runCmds emptyGraph [Cmd.constant "a" (some "node_0"),
      Cmd.constant "b" none]).1.nodes.map NodeDef.id).Nodup :=
  ⟨by decide, by decide, by decide⟩

/-- C3 witness: a safe three-call sequence yields distinct ids, and a call
reusing the name `x` fails leaving the graph unchanged. -/
theorem node_ids_distinct_of_safe_names_witness :
    (((runCmds emptyGraph [Cmd.constant "a" (some "x"), Cmd.constant "b" none,
      Cmd.placeholder none]).1.nodes.map NodeDef.id).Nodup) ∧
    runCmd ⟨[constDict "x" "a"], 0, ["x"], none⟩ (Cmd.constant "c" (some "x")) =
      (⟨[constDict "x" "a"], 0, ["x"], none⟩,
        .error (.valueError ("Node ID '" ++ "x" ++ "' already exists in graph"))) := by
  have h := node_ids_distinct_of_safe_names
    [Cmd.constant "a" (some "x"), Cmd.constant "b" none, Cmd.placeholder none]
    ⟨[constDict "x" "a"], 0, ["x"], none⟩ (Cmd.constant "c" (some "x")) "x" (by decide)
  exact ⟨h.1, h.2 rfl (by decide)⟩

/-- C4: `split` appends exactly one operation node and returns a
multi-output handle carrying that node's id; indexing the handle with any
integer `k` yields a node object whose id is the PortRef string `"id:k"`,
indexing with a non-integer raises `TypeError`, and indexing leaves the
graph untouched. -/
theorem split_multi_output_indexing (g : Graph) (nid delim : String) (k : Int)
    (tyName : String) :
    (Ops.split g nid delim none).2 = .ok ⟨autoId g.nodeCounter⟩ ∧
    (Ops.split g nid delim none).1.nodes =
      g.nodes ++ [opDict (autoId g.nodeCounter) "split" [nid] [delim]] ∧
    (∀ (g' : Graph) (m : MultiOutputNode),
      MultiOutputNode.__getitem__ g' m (.intIndex k) =
        (g', .ok ⟨m.id ++ ":" ++ toString k, "indexed_output"⟩)) ∧
    (∀ (g' : Graph) (m : MultiOutputNode),
      MultiOutputNode.__getitem__ g' m (.nonIntIndex tyName) =
        (g', .error (.typeError ("Index must be an integer, got " ++ tyName)))) := by
  refine ⟨?_, ?_, fun g' m => rfl, fun g' m => rfl⟩
  · simp [Ops.split, Graph._add_operation_node, Graph._generate_node_id, Graph._add_node]
  · simp [Ops.split, Graph._add_operation_node, Graph._generate_node_id, Graph._add_node]

/-- C5: `register_operation` fails with `ValueError` (the spec's
DuplicateOperation) when the name exists and `replace` is false, leaving the
registry unchanged; with `replace=true` or a fresh name the entry is
inserted or replaced and is observed by `is_custom_operation`,
`list_custom_operations` and `get_custom_operation`. -/
theorem register_operation_semantics (reg : Registry) (name : String) (tok : Nat)
    (multi replaceFlag : Bool) :
    (hasKeyA reg name = true →
      register_operation reg name (.fn tok) multi false =
        (reg, .error (.valueError
          ("Operation '" ++ name ++ "' already exists. Use replace=True to override.")))) ∧
    (hasKeyA reg name = false ∨ replaceFlag = true →
      register_operation reg name (.fn tok) multi replaceFlag =
        (dictInsert reg name (tok, multi), .ok ()) ∧
      is_custom_operation (dictInsert reg name (tok, multi)) name = true ∧
      name ∈ list_custom_operations (dictInsert reg name (tok, multi)) ∧
      get_custom_operation (dictInsert reg name (tok, multi)) name = some (tok, multi)) := by
  constructor
  · intro h
    simp [register_operation, h]
  · intro h
    refine ⟨?_, ?_, ?_, ?_⟩
    · rcases h with h | h
      · simp [register_operation, h]
      · subst h
        simp [register_operation]
    · simp [is_custom_operation, hasKeyA, lookupKey_dictInsert]
    · simp only [list_custom_operations]
      exact mem_map_fst_dictInsert reg name (tok, multi)
    · simp [get_custom_operation, lookupKey_dictInsert]

/-- C5 witness: re-registering `dup` without `replace` fails and leaves the
one-entry registry unchanged; with `replace=true` the entry is replaced and
remains visible. -/
theorem register_operation_semantics_witness :
    register_operation [("dup", 1, false)] "dup" (.fn 2) true false =
      ([("dup", 1, false)], .error (.valueError
        ("Operation '" ++ "dup" ++ "' already exists. Use replace=True to override."))) ∧
    register_operation [("dup", 1, false)] "dup" (.fn 2) true true =
      (dictInsert [("dup", 1, false)] "dup" (2, true), .ok ()) ∧
    is_custom_operation (dictInsert [("dup", 1, false)] "dup" (2, true)) "dup" = true := by
  have h1 := (register_operation_semantics [("dup", 1, false)] "dup" 2 true false).1
    (by decide)
  have h2 := (register_operation_semantics [("dup", 1, false)] "dup" 2 true true).2
    (Or.inr rfl)
  exact ⟨h1, h2.1, h2.2.1⟩

/-- C6: `repeat` with a negative count and `pad_left`/`pad_right` with a
fill string whose length is not one raise `ValueError` (the spec's
InvalidArgument) and leave the graph unchanged; with well-formed constants
each call appends exactly one operation node. -/
theorem malformed_constants_rejected (g : Graph) (nid : String) (count width : Int)
    (fill : String) (nm : Option String) :
    (count < 0 →
      Ops.«repeat» g nid count nm =
        (g, .error (.valueError "count must be non-negative"))) ∧
    (0 ≤ count →
      (Ops.«repeat» g nid count none).1.nodes =
        g.nodes ++ [opDict (autoId g.nodeCounter) "repeat" [nid] [toString count]] ∧
      (Ops.«repeat» g nid count none).2 = .ok (autoId g.nodeCounter)) ∧
    (fill.length ≠ 1 →
      Ops.pad_left g nid width fill nm =
        (g, .error (.valueError "fill_char must be a single character")) ∧
      Ops.pad_right g nid width fill nm =
        (g, .error (.valueError "fill_char must be a single character"))) ∧
    (fill.length = 1 →
      (Ops.pad_left g nid width fill none).1.nodes =
        g.nodes ++ [opDict (autoId g.nodeCounter) "pad_left" [nid] [toString width, fill]] ∧
      (Ops.pad_right g nid width fill none).1.nodes =
        g.nodes ++ [opDict (autoId g.nodeCounter) "pad_right" [nid]
          [toString width, fill]]) := by
  refine ⟨?_, ?_, ?_, ?_⟩
  · intro h
    simp [Ops.«repeat», h]
  · intro h
    have h' : ¬ count < 0 := by omega
    constructor <;>
      simp [Ops.«repeat», h', Graph._add_operation_node, Graph._generate_node_id,
        Graph._add_node]
  · intro h
    constructor <;> simp [Ops.pad_left, Ops.pad_right, h]
  · intro h
    constructor <;>
      simp [Ops.pad_left, Ops.pad_right, h, Graph._add_operation_node,
        Graph._generate_node_id, Graph._add_node]

/-- C6 witness: `repeat(count=-1)` and `pad_left(fill="ab")` are rejected on
the empty graph, which stays empty; `repeat(count=3)` and
`pad_right(fill="0")` each append exactly one operation node. -/
theorem malformed_constants_rejected_witness :
    Ops.«repeat» emptyGraph "x" (-1) none =
      (emptyGraph, .error (.valueError "count must be non-negative")) ∧
    (Ops.«repeat» emptyGraph "x" 3 none).1.nodes =
      [opDict (autoId 0) "repeat" ["x"] [toString (3 : Int)]] ∧
    Ops.pad_left emptyGraph "x" 5 "ab" none =
      (emptyGraph, .error (.valueError "fill_char must be a single character")) ∧
    (Ops.pad_right emptyGraph "x" 5 "0" none).1.nodes =
      [opDict (autoId 0) "pad_right" ["x"] [toString (5 : Int), "0"]] := by
  have ha := malformed_constants_rejected emptyGraph "x" (-1) 5 "ab" none
  have hb := malformed_constants_rejected emptyGraph "x" 3 5 "ab" none
  have hc := malformed_constants_rejected emptyGraph "x" 3 5 "0" none
  refine ⟨ha.1 (by norm_num), ?_, (hb.2.2.1 (by decide)).1, ?_⟩
  · simpa using (hb.2.1 (by norm_num)).1
  · simpa using (hc.2.2.2 (by decide)).2

/-- C7: for every builder-call sequence that succeeds, `to_json` emits
exactly one node definition per call, appended in call order and carrying
the id, type/op, value, inputs and constants supplied at creation; the
emitted list has one entry per builder call. -/
theorem to_json_insertion_order (g : Graph) (cmds : List Cmd)
    (h : (runCmds g cmds).2 = .ok ()) :
    Graph.to_json (runCmds g cmds).1 =
      Graph.to_json g ++ emittedDefs g.nodeCounter cmds ∧
    (emittedDefs g.nodeCounter cmds).length = cmds.length :=
  ⟨runCmds_nodes h, emittedDefs_length cmds g.nodeCounter⟩

/-- C7 witness: an auto-named constant followed by a named operation node
serialises to exactly those two definitions in call order. -/
theorem to_json_insertion_order_witness :
    Graph.to_json (runCmds emptyGraph [Cmd.constant "hello" none,
      Cmd.operation "to_upper" ["node_0"] [] (some "u")]).1 =
      [constDict "node_0" "hello", opDict "u" "to_upper" ["node_0"] []] := by
  have h := to_json_insertion_order emptyGraph
    [Cmd.constant "hello" none, Cmd.operation "to_upper" ["node_0"] [] (some "u")]
    (by decide)
  rw [h.1]
  decide

/-- C8: `run` and `compile` are read-only on the graph — the node-definition
list and the id-to-node-object mapping are unchanged. -/
theorem compile_run_read_only (g : Graph) (t : String) (f : Feed) :
    (Graph.run g t f).1 = g ∧ (Graph.run g t f).1.nodes = g.nodes ∧
    (Graph.run g t f).1.nodeObjects = g.nodeObjects ∧
    (Graph.compile g).1 = g ∧ (Graph.compile g).1.nodes = g.nodes ∧
    (Graph.compile g).1.nodeObjects = g.nodeObjects := by
  cases hc : g.compiledGraph <;> simp [Graph.run, Graph.compile, hc]

/-- C9: `register_python_operation` with a registered name and `override`
false returns `False` leaving the previous function in place; with
`override` true it replaces the entry and returns `True`. -/
theorem register_python_operation_override (m : HybridOperationManager)
    (name : String) (tok old : Nat) :
    (lookupKey m.python_operations name = some old →
      HybridOperationManager.register_python_operation m name tok false = (m, false) ∧
      lookupKey (HybridOperationManager.register_python_operation m name
        tok false).1.python_operations name = some old) ∧
    (HybridOperationManager.register_python_operation m name tok true =
      ({ python_operations := dictInsert m.python_operations name tok,
         cpp_operations := m.cpp_operations,
         loaded_libraries := m.loaded_libraries,
         operation_priorities := dictInsert m.operation_priorities name "python" },
        true) ∧
      lookupKey (dictInsert m.python_operations name tok) name = some tok) := by
  constructor
  · intro h
    have hk : hasKeyA m.python_operations name = true := by simp [hasKeyA, h]
    constructor
    · simp [HybridOperationManager.register_python_operation, hk]
    · simp [HybridOperationManager.register_python_operation, hk, h]
  · exact ⟨by simp [HybridOperationManager.register_python_operation],
      lookupKey_dictInsert _ _ _⟩

/-- C9 witness: on a manager holding `f`, registering `f` again without
`override` returns `False` and keeps the old function; with `override` the
function is replaced and `True` is returned. -/
theorem register_python_operation_override_witness :
    HybridOperationManager.register_python_operation
      ⟨[("f", 7)], [], [], [("f", "python")]⟩ "f" 9 false =
      (⟨[("f", 7)], [], [], [("f", "python")]⟩, false) ∧
    HybridOperationManager.register_python_operation
      ⟨[("f", 7)], [], [], [("f", "python")]⟩ "f" 9 true =
      (⟨[("f", 9)], [], [], [("f", "python")]⟩, true) := by
  have h := register_python_operation_override
    ⟨[("f", 7)], [], [], [("f", "python")]⟩ "f" 9 7
  refine ⟨(h.1 (by decide)).1, ?_⟩
  have h2 := h.2.1
  simpa [dictInsert] using h2

/-- C10: entering a Graph context while another is active raises
`RuntimeError` and leaves the slot unchanged; entering with a free slot
stores the graph; exit always resets the slot to `None` (and returns
`False`, so a body exception propagates); `get_active_graph` raises
`RuntimeError` exactly on an empty slot. -/
theorem graph_context_manager (slot : Option Graph) (g g0 : Graph) (raised : Bool) :
    Graph.__enter__ (some g0) g =
      (some g0, .error (.runtimeError "Cannot nest Graph context managers")) ∧
    Graph.__enter__ none g = (some g, .ok g) ∧
    (Graph.__exit__ slot raised).1 = none ∧
    get_active_graph none =
      .error (.runtimeError
        "No active graph. Use 'with Graph() as g:' or create Graph explicitly.") ∧
    get_active_graph (some g) = .ok g :=
  ⟨rfl, rfl, rfl, rfl, rfl⟩

end StrGraph

